import Mathlib

/-!
Verification of the clip-discovery and deduplication engine of the
GiliBot-V3 StreamClips cog (`streamclips/streamtypes.py` and
`streamclips/streamclips.py`).

Timestamps are modelled as `Int` epoch seconds (the source works with
`datetime.timestamp` floats and fixed second offsets).  Each network call
site is modelled by the finite trace of responses the backend serves, and
the Python exception taxonomy (declared in the `.errors` module of this
repository) becomes an explicit error type in `Except` results.
-/

set_option autoImplicit false

namespace GiliBot

/-- Error taxonomy of the cog.  Modelled from the spec: the `.errors`
module of the repository (imported by both source files but not itself part
of the provided sources) declares the exception classes
`APIError`, `OfflineStream`, `InvalidTwitchCredentials`,
`InvalidYoutubeCredentials` and `StreamNotFound`; they carry no payload
relevant to the claims. -/
inductive StreamErr where
  | apiError
  | offlineStream
  | invalidTwitchCredentials
  | invalidYoutubeCredentials
  | streamNotFound
  deriving DecidableEq, Repr

/-- A Twitch `RawClip` as consumed by `TwitchStream.get_new_clips` and
`TwitchStream.make_clip_embeds`: the fields of the Helix clip object the
code reads (`id`, `url`, `title`, `broadcaster_name`, `thumbnail_url`). -/
structure TClip where
  id : String
  url : String
  title : String
  broadcasterName : String
  thumbnailUrl : String
  deriving DecidableEq, Repr

/-- Enrichment metadata built by `TwitchStream.get_clip_metadata`:
a `profile_image_url` (empty string models a falsy value) and an optional
`game_name`. -/
structure Metadata where
  profileImageUrl : String
  gameName : Option String
  deriving DecidableEq, Repr

/-- The observable content of a Discord embed produced by
`TwitchStream.make_clip_embeds`. -/
structure ClipEmbed where
  title : String
  url : String
  authorName : String
  thumbnail : String
  image : String
  footer : Option String
  deriving DecidableEq, Repr

def defaultAvatar : String :=
  "https://static-cdn.jtvnw.net/jtv_user_pictures/xarth/404_user_70x70.png"

/-- `TwitchStream.make_clip_embeds` (streamtypes.py lines 342-355):
title/url/author/image come from the clip, the thumbnail from the
metadata's `profile_image_url` when truthy (else the default avatar), the
footer from `game_name` when present. -/
def make_clip_embeds (data : TClip) (clip_metadata : Metadata) : ClipEmbed :=
  { title := data.title
    url := data.url
    authorName := data.broadcasterName
    thumbnail :=
      if clip_metadata.profileImageUrl ≠ "" then clip_metadata.profileImageUrl
      else defaultAvatar
    image := data.thumbnailUrl
    footer := clip_metadata.gameName.map (fun g => "Playing: " ++ g) }

/-- One entry of `Stream.knownclips` as persisted: either a legacy bare
identifier (a plain string) or an `[id, timestamp]` pair. -/
inductive KnownEntry where
  | legacy (cid : String)
  | timed (cid : String) (ts : Int)
  deriving DecidableEq, Repr

/-- Seven days in seconds: `get_new_clips` computes
`clipexpiration = datetime.timestamp(datetime.now() - timedelta(days=7))`. -/
def retentionSeconds : Int := 7 * 86400

/-- The first loop of `TwitchStream.get_new_clips` (lines 236-245): carry a
timestamped entry forward iff `clipexpiration < entry[1]`; re-add a legacy
bare-id entry as the pair `[id, now]`. -/
def twitch_carry_forward (now : Int) : List KnownEntry → List (String × Int)
  | [] => []
  | KnownEntry.timed cid ts :: rest =>
      if now - retentionSeconds < ts then
        (cid, ts) :: twitch_carry_forward now rest
      else
        twitch_carry_forward now rest
  | KnownEntry.legacy cid :: rest =>
      (cid, now) :: twitch_carry_forward now rest

/-- Result of one `TwitchStream.get_new_clips` call: `novel` records the
clips that entered the `currentclipfound == False` branch (the clips logged
as new and appended to the ledger), `embeds` the embeds actually appended
to `clip_embeds` (the returned batch), `knownclips` the new ledger. -/
structure TwitchGNC where
  novel : List TClip
  embeds : List ClipEmbed
  knownclips : List (String × Int)
  deriving DecidableEq, Repr

/-- The candidate loop of `TwitchStream.get_new_clips` (lines 249-268).
`fetchMeta` models `get_clip_metadata` for the current cycle (`.error`
models a raised exception).  `lastMeta` models the Python local
`clip_metadata`, which is unbound (`none`) until a fetch first succeeds and
keeps its previous value when a later fetch raises; when it is unbound,
`make_clip_embeds` raises `NameError`, which the surrounding
`try/except` swallows, so no embed is appended for that clip. -/
def twitch_scan (now : Int) (fetchMeta : TClip → Except Unit Metadata) :
    Option Metadata → List TClip → List (String × Int) → TwitchGNC
  | _, [], kn => ⟨[], [], kn⟩
  | lastMeta, c :: rest, kn =>
      if kn.any (fun e => e.fst == c.id) then
        twitch_scan now fetchMeta lastMeta rest kn
      else
        let kn2 := kn ++ [(c.id, now)]
        match fetchMeta c with
        | Except.ok m =>
            let r := twitch_scan now fetchMeta (some m) rest kn2
            ⟨c :: r.novel, make_clip_embeds c m :: r.embeds, r.knownclips⟩
        | Except.error _ =>
            match lastMeta with
            | some m =>
                let r := twitch_scan now fetchMeta (some m) rest kn2
                ⟨c :: r.novel, make_clip_embeds c m :: r.embeds, r.knownclips⟩
            | none =>
                let r := twitch_scan now fetchMeta none rest kn2
                ⟨c :: r.novel, r.embeds, r.knownclips⟩

/-- `TwitchStream.get_new_clips` (lines 225-271) given the list
`all_clip_data` returned by `get_all_clips` with its fresh local
accumulator: carry the old ledger forward, then scan the candidates with
the `clip_metadata` local initially unbound. -/
def twitch_get_new_clips (now : Int) (fetchMeta : TClip → Except Unit Metadata)
    (knownclips : List KnownEntry) (all_clip_data : List TClip) : TwitchGNC :=
  twitch_scan now fetchMeta none all_clip_data (twitch_carry_forward now knownclips)

/-- Persisted `knownclips` pairs read back on the next call are lists, so
the `isinstance(existingclip, list)` test classifies them as timed
entries. -/
def toEntries (pairs : List (String × Int)) : List KnownEntry :=
  pairs.map (fun p => KnownEntry.timed p.fst p.snd)

/-- A Mixer clip as consumed by `MixerStream.get_new_clips`: its
`shareableId` and its `uploadDate` (the parsed UTC time, as epoch
seconds). -/
structure MClip where
  shareableId : String
  uploadDate : Int
  deriving DecidableEq, Repr

/-- Six hours in seconds: `clipthreshold = datetime.utcnow() - timedelta(hours=6)`. -/
def mixerWindowSeconds : Int := 6 * 3600

/-- Result of one `MixerStream.get_new_clips` call: `novel` records the
clips passing the `count == 0 and cliptime > clipthreshold` test (each of
which gets exactly one embed appended), `knownclips` the new ledger. -/
structure MixerGNC where
  novel : List MClip
  knownclips : List String
  deriving DecidableEq, Repr

/-- `MixerStream.get_new_clips` (lines 526-545) given the list returned by
`get_all_clips`: every returned clip's `shareableId` is appended to the new
ledger; a clip is novel iff the old ledger `self.knownclips` counts its id
zero times and its upload time is strictly within the last 6 hours. -/
def mixer_get_new_clips (now : Int) (knownclips : List String)
    (all_clip_data : List MClip) : MixerGNC :=
  { novel := all_clip_data.filter
      (fun c => knownclips.count c.shareableId == 0
        && decide (now - mixerWindowSeconds < c.uploadDate))
    knownclips := all_clip_data.map (fun c => c.shareableId) }

/-- One HTTP response observed by `TwitchStream.get_all_clips`: the status,
and (meaningful when the status is 200) the parsed body's `data` list and
its `pagination` object (`none` models an empty/falsy pagination dict,
`some c` a dict holding cursor `c`). -/
structure TwitchResp where
  status : Nat
  data : List TClip
  pagination : Option String
  deriving DecidableEq, Repr

/-- `TwitchStream.get_all_clips` (lines 273-305) over the finite trace of
responses the backend serves to its successive calls: on 200 append the
page's `data` to `existing_data` and recurse while the pagination object is
truthy; on 404 raise `StreamNotFound`; on any other status raise
`APIError`.  The empty-trace case (the backend never leaves a call
unanswered) returns the accumulator and is unreachable whenever the trace
contains a terminating response. -/
def twitch_get_all_clips : List TwitchResp → List TClip → Except StreamErr (List TClip)
  | [], existing_data => Except.ok existing_data
  | r :: rest, existing_data =>
      if r.status = 200 then
        let existing2 := existing_data ++ r.data
        match r.pagination with
        | some _ => twitch_get_all_clips rest existing2
        | none => Except.ok existing2
      else if r.status = 404 then Except.error StreamErr.streamNotFound
      else Except.error StreamErr.apiError

/-- One HTTP response observed by `MixerStream.get_all_clips`: the status
and (meaningful when the status is 200) the parsed JSON body, `none`
modelling a `null` body. -/
structure MixerResp where
  status : Nat
  body : Option (List MClip)
  deriving DecidableEq, Repr

/-- `MixerStream.get_all_clips` (lines 618-652) over the finite response
trace: on 200, a `null` body returns the accumulator; otherwise every item
is appended and the continuation token is set from each item's
`uploadDate`, so the token stays `None` exactly when the page is empty, in
which case the accumulator is returned; with a nonempty page the loop
recurses.  404 raises `StreamNotFound`, other statuses `APIError`. -/
def mixer_get_all_clips : List MixerResp → List MClip → Except StreamErr (List MClip)
  | [], existing_data => Except.ok existing_data
  | r :: rest, existing_data =>
      if r.status = 200 then
        match r.body with
        | none => Except.ok existing_data
        | some items =>
            match items with
            | [] => Except.ok existing_data
            | _ => mixer_get_all_clips rest (existing_data ++ items)
      else if r.status = 404 then Except.error StreamErr.streamNotFound
      else Except.error StreamErr.apiError

/-- `TwitchStream.seed_new_streamer` (lines 213-223).  The call
`self.get_all_clips([logger, existing_data])` binds the two-element list to
the `logger` parameter only, so the `existing_data` parameter falls back to
its default `[]` — a single mutable list object shared by every call that
uses the default.  `sharedDefault` is that object's current contents;
`get_all_clips` appends every fetched clip to it, so the call returns the
new ledger together with the default object's new contents. -/
def twitch_seed_new_streamer (now : Int) (resps : List TwitchResp)
    (sharedDefault : List TClip) :
    Except StreamErr (List (String × Int) × List TClip) :=
  match twitch_get_all_clips resps sharedDefault with
  | Except.ok acc => Except.ok (acc.map (fun c => (c.id, now)), acc)
  | Except.error e => Except.error e

/-- A registry entry of `StreamClips.streams`: `sid` models Python object
identity (the `in`/`remove` operations on `self.streams` compare stream
objects by identity, since `Stream` defines no `__eq__`), and `channels`
the stream's destination-channel id list. -/
structure StreamR where
  sid : Nat
  channels : List Nat
  deriving DecidableEq, Repr

/-- Removal of a stream object from a stream list (`self.streams.remove(stream)`):
drop the first entry with the given identity.  Python raises `ValueError`
when the object is absent; the code only removes streams it holds a member
of, so that case is unreachable. -/
def removeStream : List StreamR → Nat → List StreamR
  | [], _ => []
  | s :: rest, i => if s.sid = i then rest else s :: removeStream rest i

/-- `StreamClips.add_or_remove` (streamclips.py lines 338-358).  When the
invoking channel id is not among the stream's destinations it is appended
(mutating the stream object, hence every list slot holding that object)
and the stream is appended to `self.streams` if not already a member; else
the channel id's first occurrence is removed and, if the destination list
became empty, the stream object is removed from `self.streams`.  The
resulting list is then persisted by `save_streams`. -/
def add_or_remove (ctxId : Nat) (stream : StreamR) (streams : List StreamR) :
    List StreamR :=
  if ctxId ∈ stream.channels then
    let updated : StreamR := ⟨stream.sid, stream.channels.erase ctxId⟩
    let streams2 := streams.map (fun s => if s.sid = stream.sid then updated else s)
    if updated.channels = [] then removeStream streams2 stream.sid else streams2
  else
    let updated : StreamR := ⟨stream.sid, stream.channels ++ [ctxId]⟩
    let streams2 := streams.map (fun s => if s.sid = stream.sid then updated else s)
    if streams.any (fun s => s.sid == stream.sid) then streams2
    else streams2 ++ [updated]

/-- The inner loop of `StreamClips.clipalert_stop` (lines 201-207) on one
stream's destination list, with Python's iterator semantics made explicit:
the iterator reads index `i` of the current list and advances `i` whether
or not an element was removed, so a removal skips the element that slid
into position `i`.  `list.remove(x)` drops the first occurrence of `x`. -/
def stop_scan (ctxId : Nat) (allFlag : Bool) (ctxInLocal : Bool)
    (channels : List Nat) (i : Nat) : List Nat :=
  if h : i < channels.length then
    if hx : channels.get ⟨i, h⟩ = ctxId then
      stop_scan ctxId allFlag ctxInLocal (channels.erase ctxId) (i + 1)
    else if allFlag && ctxInLocal then
      if channels.get ⟨i, h⟩ ∈ channels then
        stop_scan ctxId allFlag ctxInLocal (channels.erase (channels.get ⟨i, h⟩)) (i + 1)
      else
        stop_scan ctxId allFlag ctxInLocal channels (i + 1)
    else
      stop_scan ctxId allFlag ctxInLocal channels (i + 1)
  else channels
termination_by channels.length - i
decreasing_by
  all_goals
    first
      | (have hm : ctxId ∈ channels := hx ▸ List.get_mem channels i h
         have := List.length_erase_of_mem hm
         omega)
      | (have hm : channels.get ⟨i, h⟩ ∈ channels := List.get_mem channels i h
         have := List.length_erase_of_mem hm
         omega)
      | omega

/-- `StreamClips.clipalert_stop` (lines 187-223): each stream's destination
list is scanned by the inner loop (the stream objects are shared between
`self.streams` and its shallow copy, so mutations show in both), streams
whose destination list ended empty are collected into `to_remove` and
removed from the copy, and the copy becomes the new persisted registry. -/
def clipalert_stop (ctxId : Nat) (allFlag : Bool) (ctxInLocal : Bool)
    (streams : List StreamR) : List StreamR :=
  (streams.map
      (fun s => StreamR.mk s.sid (stop_scan ctxId allFlag ctxInLocal s.channels 0))).filter
    (fun s => !s.channels.isEmpty)

/-- `StreamClips.check_clips` (streamclips.py lines 399-454): a sequential
pass over the registered streams; the whole per-stream body (credential
refresh, `get_new_clips`, `save_streams`, notification delivery) runs under
`contextlib.suppress(Exception)`, abstracted here as a `step` that either
yields the stream's updated state and emitted embeds or an exception.  On
an exception the stream keeps its prior state and the loop moves on. -/
def check_clips {σ ε β : Type} (step : σ → Except ε (σ × List β)) :
    List σ → List σ × List β
  | [] => ([], [])
  | s :: rest =>
      match step s with
      | Except.ok (s2, es) =>
          let r := check_clips step rest
          (s2 :: r.fst, es ++ r.snd)
      | Except.error _ =>
          let r := check_clips step rest
          (s :: r.fst, r.snd)

/-- A sample per-stream step for exercising the poll-cycle loop on
concrete inputs: stream 1 raises, every other stream succeeds. -/
def sampleStep : Nat → Except Nat (Nat × List Nat) :=
  fun n => if n = 1 then Except.error 7 else Except.ok (n + 1, [n])

/-! ### Helper lemmas about the Twitch novelty scan -/

theorem twitch_scan_known_mono (now : Int) (f : TClip → Except Unit Metadata) :
    ∀ (cands : List TClip) (lm : Option Metadata) (kn : List (String × Int)),
      ∀ e ∈ kn, e ∈ (twitch_scan now f lm cands kn).knownclips := by
  intro cands
  induction cands with
  | nil => intro lm kn e he; simpa [twitch_scan] using he
  | cons c rest ih =>
      intro lm kn e he
      by_cases hf : (kn.any (fun p => p.fst == c.id)) = true
      · simpa [twitch_scan, hf] using ih lm kn e he
      · have he2 : e ∈ kn ++ [(c.id, now)] := List.mem_append_left _ he
        cases hm : f c with
        | ok m => simpa [twitch_scan, hf, hm] using ih (some m) _ e he2
        | error u =>
            cases lm with
            | some m => simpa [twitch_scan, hf, hm] using ih (some m) _ e he2
            | none => simpa [twitch_scan, hf, hm] using ih none _ e he2

theorem twitch_scan_novel_known (now : Int) (f : TClip → Except Unit Metadata) :
    ∀ (cands : List TClip) (lm : Option Metadata) (kn : List (String × Int)),
      ∀ c ∈ (twitch_scan now f lm cands kn).novel,
        (c.id, now) ∈ (twitch_scan now f lm cands kn).knownclips := by
  intro cands
  induction cands with
  | nil => intro lm kn c hc; simp [twitch_scan] at hc
  | cons c rest ih =>
      intro lm kn d hd
      by_cases hf : (kn.any (fun p => p.fst == c.id)) = true
      · rw [twitch_scan] at hd ⊢
        simp only [hf, if_pos] at hd ⊢
        exact ih lm kn d hd
      · have hbase : (c.id, now) ∈ kn ++ [(c.id, now)] :=
          List.mem_append_right _ (by simp)
        cases hm : f c with
        | ok m =>
            rw [twitch_scan] at hd ⊢
            simp only [hf, hm] at hd ⊢
            rcases List.mem_cons.mp hd with hd | hd
            · subst hd
              exact twitch_scan_known_mono now f rest (some m) _ _ hbase
            · exact ih (some m) _ d hd
        | error u =>
            cases lm with
            | some m =>
                rw [twitch_scan] at hd ⊢
                simp only [hf, hm] at hd ⊢
                rcases List.mem_cons.mp hd with hd | hd
                · subst hd
                  exact twitch_scan_known_mono now f rest (some m) _ _ hbase
                · exact ih (some m) _ d hd
            | none =>
                rw [twitch_scan] at hd ⊢
                simp only [hf, hm] at hd ⊢
                rcases List.mem_cons.mp hd with hd | hd
                · subst hd
                  exact twitch_scan_known_mono now f rest none _ _ hbase
                · exact ih none _ d hd

theorem twitch_scan_known_src (now : Int) (f : TClip → Except Unit Metadata) :
    ∀ (cands : List TClip) (lm : Option Metadata) (kn : List (String × Int)),
      ∀ e ∈ (twitch_scan now f lm cands kn).knownclips, e ∈ kn ∨ e.snd = now := by
  intro cands
  induction cands with
  | nil => intro lm kn e he; simp [twitch_scan] at he; exact Or.inl he
  | cons c rest ih =>
      intro lm kn e he
      by_cases hf : (kn.any (fun p => p.fst == c.id)) = true
      · rw [twitch_scan] at he
        simp only [hf, if_pos] at he
        exact ih lm kn e he
      · have step : e ∈ kn ++ [(c.id, now)] → e ∈ kn ∨ e.snd = now := by
          intro h2
          rcases List.mem_append.mp h2 with h2 | h2
          · exact Or.inl h2
          · right; simp at h2; subst h2; rfl
        cases hm : f c with
        | ok m =>
            rw [twitch_scan] at he
            simp only [hf, hm] at he
            rcases ih (some m) _ e he with h2 | h2
            · exact step h2
            · exact Or.inr h2
        | error u =>
            cases lm with
            | some m =>
                rw [twitch_scan] at he
                simp only [hf, hm] at he
                rcases ih (some m) _ e he with h2 | h2
                · exact step h2
                · exact Or.inr h2
            | none =>
                rw [twitch_scan] at he
                simp only [hf, hm] at he
                rcases ih none _ e he with h2 | h2
                · exact step h2
                · exact Or.inr h2

theorem twitch_scan_novel_nil (now : Int) (f : TClip → Except Unit Metadata) :
    ∀ (cands : List TClip) (lm : Option Metadata) (kn : List (String × Int)),
      (∀ c ∈ cands, ∃ e ∈ kn, e.fst = c.id) →
      (twitch_scan now f lm cands kn).novel = [] := by
  intro cands
  induction cands with
  | nil => intro lm kn _; simp [twitch_scan]
  | cons c rest ih =>
      intro lm kn hall
      have hf : (kn.any (fun p => p.fst == c.id)) = true := by
        rcases hall c (List.mem_cons_self c rest) with ⟨e, he, heq⟩
        exact List.any_eq_true.mpr ⟨e, he, by simpa using heq⟩
      rw [twitch_scan]
      simp only [hf, if_pos]
      exact ih lm kn (fun d hd => hall d (List.mem_cons_of_mem c hd))

/-! ### Helper lemmas about the carry-forward pass -/

theorem carry_mem_timed (now : Int) {cid : String} {ts : Int} :
    ∀ (known : List KnownEntry), KnownEntry.timed cid ts ∈ known →
      now - retentionSeconds < ts →
      (cid, ts) ∈ twitch_carry_forward now known := by
  intro known
  induction known with
  | nil => intro h; simp at h
  | cons e rest ih =>
      intro hmem hts
      rcases List.mem_cons.mp hmem with h | h
      · subst h
        simp [twitch_carry_forward, hts]
      · cases e with
        | legacy cid2 => simp [twitch_carry_forward, ih h hts]
        | timed cid2 ts2 =>
            by_cases h2 : now - retentionSeconds < ts2
            · simp [twitch_carry_forward, h2, ih h hts]
            · simp [twitch_carry_forward, h2, ih h hts]

theorem carry_mem_legacy (now : Int) {cid : String} :
    ∀ (known : List KnownEntry), KnownEntry.legacy cid ∈ known →
      (cid, now) ∈ twitch_carry_forward now known := by
  intro known
  induction known with
  | nil => intro h; simp at h
  | cons e rest ih =>
      intro hmem
      rcases List.mem_cons.mp hmem with h | h
      · subst h
        simp [twitch_carry_forward]
      · cases e with
        | legacy cid2 => simp [twitch_carry_forward, ih h]
        | timed cid2 ts2 =>
            by_cases h2 : now - retentionSeconds < ts2
            · simp [twitch_carry_forward, h2, ih h]
            · simp [twitch_carry_forward, h2, ih h]

theorem carry_src (now : Int) :
    ∀ (known : List KnownEntry) (p : String × Int),
      p ∈ twitch_carry_forward now known → now - retentionSeconds < p.snd := by
  intro known
  induction known with
  | nil => intro p h; simp [twitch_carry_forward] at h
  | cons e rest ih =>
      intro p h
      cases e with
      | legacy cid =>
          rw [twitch_carry_forward] at h
          rcases List.mem_cons.mp h with h | h
          · subst h
            have : (0 : Int) < retentionSeconds := by norm_num [retentionSeconds]
            simp only []
            omega
          · exact ih p h
      | timed cid ts =>
          by_cases h2 : now - retentionSeconds < ts
          · rw [twitch_carry_forward] at h
            simp only [h2, if_pos] at h
            rcases List.mem_cons.mp h with h | h
            · subst h; exact h2
            · exact ih p h
          · rw [twitch_carry_forward] at h
            simp only [h2, if_neg, not_false_iff] at h
            exact ih p h

/-! ### Claims -/

/-- C1: replay idempotence of the per-stream novelty filter.  For every
ledger state and candidate set, running `TwitchStream.get_new_clips`
(resp. `MixerStream.get_new_clips`) once and then again with the second
call's candidates equal to the first call's novel output yields an empty
novel result, the Twitch replay happening within the retention window. -/
theorem novelty_filter_replay_idempotent
    (now1 now2 : Int) (f1 f2 : TClip → Except Unit Metadata)
    (known : List KnownEntry) (cands : List TClip)
    (mknown : List String) (mcands : List MClip)
    (hlive : now2 - retentionSeconds < now1) :
    (twitch_get_new_clips now2 f2
        (toEntries (twitch_get_new_clips now1 f1 known cands).knownclips)
        (twitch_get_new_clips now1 f1 known cands).novel).novel = []
    ∧ (mixer_get_new_clips now2
        (mixer_get_new_clips now1 mknown mcands).knownclips
        (mixer_get_new_clips now1 mknown mcands).novel).novel = [] := by
  constructor
  · simp only [twitch_get_new_clips]
    apply twitch_scan_novel_nil
    intro c hc
    have h1 : (c.id, now1) ∈ (twitch_scan now1 f1 none cands
        (twitch_carry_forward now1 known)).knownclips :=
      twitch_scan_novel_known now1 f1 cands none _ c hc
    refine ⟨(c.id, now1), ?_, rfl⟩
    apply carry_mem_timed now2 _ ?_ hlive
    exact List.mem_map_of_mem _ h1
  · simp only [mixer_get_new_clips]
    apply List.filter_eq_nil.mpr
    intro c hc
    have hcand : c ∈ mcands := List.mem_of_mem_filter hc
    have hmem : c.shareableId ∈ mcands.map (fun d => d.shareableId) :=
      List.mem_map_of_mem _ hcand
    have hcount : (mcands.map (fun d => d.shareableId)).count c.shareableId ≠ 0 :=
      fun h0 => (List.count_eq_zero.mp h0) hmem
    simp [Bool.and_eq_true, hcount]

/-- Witness for C1 at a concrete replay: one Twitch candidate and one
Mixer candidate, both calls at time 0. -/
theorem novelty_filter_replay_idempotent_witness :
    ((0 : Int) - retentionSeconds < 0)
    ∧ ((twitch_get_new_clips 0 (fun _ => Except.error ())
          (toEntries (twitch_get_new_clips 0 (fun _ => Except.error ())
            [] [⟨"a", "u", "t", "b", "th"⟩]).knownclips)
          (twitch_get_new_clips 0 (fun _ => Except.error ())
            [] [⟨"a", "u", "t", "b", "th"⟩]).novel).novel = []
        ∧ (mixer_get_new_clips 0
            (mixer_get_new_clips 0 [] [⟨"m", 0⟩]).knownclips
            (mixer_get_new_clips 0 [] [⟨"m", 0⟩]).novel).novel = []) :=
  ⟨by decide,
    novelty_filter_replay_idempotent 0 0 (fun _ => Except.error ())
      (fun _ => Except.error ()) [] [⟨"a", "u", "t", "b", "th"⟩] [] [⟨"m", 0⟩]
      (by decide)⟩

/-- C2: ledger expiry boundary for the Twitch 7-day retention.  An entry
timestamped `now - retention - 1` is absent from the updated known-clip
list produced by `get_new_clips`; an entry timestamped
`now - retention + 1` is present in it. -/
theorem twitch_ledger_expiry_boundary
    (now : Int) (f : TClip → Except Unit Metadata)
    (known : List KnownEntry) (cands : List TClip) (cid cid2 : String)
    (hold : KnownEntry.timed cid (now - retentionSeconds - 1) ∈ known)
    (hfresh : KnownEntry.timed cid2 (now - retentionSeconds + 1) ∈ known) :
    (cid, now - retentionSeconds - 1) ∉
        (twitch_get_new_clips now f known cands).knownclips
    ∧ (cid2, now - retentionSeconds + 1) ∈
        (twitch_get_new_clips now f known cands).knownclips := by
  have hret : retentionSeconds = 604800 := rfl
  constructor
  · intro hmem
    simp only [twitch_get_new_clips] at hmem
    rcases twitch_scan_known_src now f cands none _ _ hmem with h | h
    · have := carry_src now known _ h
      simp only at this
      omega
    · simp only at h
      omega
  · simp only [twitch_get_new_clips]
    apply twitch_scan_known_mono
    apply carry_mem_timed now known hfresh
    omega

/-- Witness for C2 at `now = 0` with one expired and one live entry. -/
theorem twitch_ledger_expiry_boundary_witness :
    (KnownEntry.timed "old" ((0 : Int) - retentionSeconds - 1) ∈
        [KnownEntry.timed "old" (-604801 : Int), KnownEntry.timed "live" (-604799 : Int)]
      ∧ KnownEntry.timed "live" ((0 : Int) - retentionSeconds + 1) ∈
        [KnownEntry.timed "old" (-604801 : Int), KnownEntry.timed "live" (-604799 : Int)])
    ∧ (("old", (0 : Int) - retentionSeconds - 1) ∉
        (twitch_get_new_clips 0 (fun _ => Except.error ())
          [KnownEntry.timed "old" (-604801 : Int), KnownEntry.timed "live" (-604799 : Int)]
          []).knownclips
      ∧ ("live", (0 : Int) - retentionSeconds + 1) ∈
        (twitch_get_new_clips 0 (fun _ => Except.error ())
          [KnownEntry.timed "old" (-604801 : Int), KnownEntry.timed "live" (-604799 : Int)]
          []).knownclips) :=
  ⟨by decide,
    twitch_ledger_expiry_boundary 0 (fun _ => Except.error ())
      [KnownEntry.timed "old" (-604801 : Int), KnownEntry.timed "live" (-604799 : Int)]
      [] "old" "live" (by decide) (by decide)⟩

/-- C3: legacy-entry migration.  Every bare-identifier ledger entry is
carried into the updated known-clip list of `TwitchStream.get_new_clips`
as the pair `[id, now]`. -/
theorem twitch_legacy_entry_migration
    (now : Int) (f : TClip → Except Unit Metadata)
    (known : List KnownEntry) (cands : List TClip) (s : String)
    (hleg : KnownEntry.legacy s ∈ known) :
    (s, now) ∈ (twitch_get_new_clips now f known cands).knownclips := by
  simp only [twitch_get_new_clips]
  exact twitch_scan_known_mono now f cands none _ _ (carry_mem_legacy now known hleg)

/-- Witness for C3 with a single legacy entry. -/
theorem twitch_legacy_entry_migration_witness :
    (KnownEntry.legacy "bare" ∈ [KnownEntry.legacy "bare"])
    ∧ ("bare", (42 : Int)) ∈
        (twitch_get_new_clips 42 (fun _ => Except.error ())
          [KnownEntry.legacy "bare"] []).knownclips :=
  ⟨by decide,
    twitch_legacy_entry_migration 42 (fun _ => Except.error ())
      [KnownEntry.legacy "bare"] [] "bare" (by decide)⟩

/-- C4: the Mixer 6-hour acceptance filter.  A returned clip whose
`uploadDate` is older than 6 hours before now is excluded from the novel
output of `MixerStream.get_new_clips`, whatever the known-clip set. -/
theorem mixer_six_hour_filter
    (now : Int) (knownclips : List String) (cands : List MClip) (c : MClip)
    (hold : c.uploadDate < now - mixerWindowSeconds) :
    c ∉ (mixer_get_new_clips now knownclips cands).novel := by
  intro hc
  simp only [mixer_get_new_clips] at hc
  have hp := List.of_mem_filter hc
  simp only [Bool.and_eq_true, decide_eq_true_eq] at hp
  omega

/-- Witness for C4: a stale clip unknown to the ledger, at `now = 0`. -/
theorem mixer_six_hour_filter_witness :
    ((⟨"m", -21601⟩ : MClip).uploadDate < (0 : Int) - mixerWindowSeconds)
    ∧ (⟨"m", -21601⟩ : MClip) ∉
        (mixer_get_new_clips 0 [] [⟨"m", -21601⟩]).novel :=
  ⟨by decide, mixer_six_hour_filter 0 [] [⟨"m", -21601⟩] ⟨"m", -21601⟩ (by decide)⟩

/-! ### Pagination lemmas -/

theorem twitch_pages_concat (lastData : List TClip) :
    ∀ (datas : List (List TClip)) (cursors : List String) (existing : List TClip),
      datas.length = cursors.length →
      twitch_get_all_clips
          ((List.zipWith (fun d c => TwitchResp.mk 200 d (some c)) datas cursors)
            ++ [TwitchResp.mk 200 lastData none]) existing
        = Except.ok (existing ++ (datas ++ [lastData]).join) := by
  intro datas
  induction datas with
  | nil =>
      intro cursors existing _
      simp [twitch_get_all_clips]
  | cons d ds ih =>
      intro cursors existing hlen
      cases cursors with
      | nil => simp at hlen
      | cons c cs =>
          have hlen2 : ds.length = cs.length := by simpa using hlen
          simp only [List.zipWith_cons_cons, List.cons_append]
          rw [twitch_get_all_clips]
          simp only [if_pos rfl]
          rw [ih cs (existing ++ d) hlen2]
          simp [List.append_assoc]

theorem mixer_pages_concat :
    ∀ (datas : List (List MClip)) (existing : List MClip) (terminal : MixerResp),
      (∀ p ∈ datas, p ≠ []) →
      (terminal = MixerResp.mk 200 none ∨ terminal = MixerResp.mk 200 (some [])) →
      mixer_get_all_clips
          ((datas.map (fun d => MixerResp.mk 200 (some d))) ++ [terminal]) existing
        = Except.ok (existing ++ datas.join) := by
  intro datas
  induction datas with
  | nil =>
      intro existing terminal _ hterm
      rcases hterm with h | h <;> subst h <;> simp [mixer_get_all_clips]
  | cons d ds ih =>
      intro existing terminal hne hterm
      have hd : d ≠ [] := hne d (by simp)
      simp only [List.map_cons, List.cons_append]
      rw [mixer_get_all_clips]
      cases d with
      | nil => exact absurd rfl hd
      | cons a as =>
          simp only [if_pos rfl]
          rw [ih (existing ++ (a :: as)) terminal
            (fun p hp => hne p (List.mem_cons_of_mem _ hp)) hterm]
          simp [List.append_assoc]

/-- C5: pagination soundness and termination.  A Twitch backend serving
pages with cursors followed by a final page with an empty pagination
object, and a Mixer backend serving nonempty pages followed by a null body
(or an empty page), make the respective `get_all_clips` loops return
exactly the concatenation of all pages' items in page order, starting from
an empty accumulator; both loops are total functions of the (finite)
response trace, so they terminate at the token-less page. -/
theorem pagination_concat_terminates
    (tdatas : List (List TClip)) (cursors : List String) (lastData : List TClip)
    (mdatas : List (List MClip))
    (hlen : tdatas.length = cursors.length)
    (hne : ∀ p ∈ mdatas, p ≠ []) :
    twitch_get_all_clips
        ((List.zipWith (fun d c => TwitchResp.mk 200 d (some c)) tdatas cursors)
          ++ [TwitchResp.mk 200 lastData none]) []
      = Except.ok ((tdatas ++ [lastData]).join)
    ∧ mixer_get_all_clips
        ((mdatas.map (fun d => MixerResp.mk 200 (some d))) ++ [MixerResp.mk 200 none]) []
      = Except.ok mdatas.join
    ∧ mixer_get_all_clips
        ((mdatas.map (fun d => MixerResp.mk 200 (some d))) ++ [MixerResp.mk 200 (some [])]) []
      = Except.ok mdatas.join := by
  refine ⟨?_, ?_, ?_⟩
  · simpa using twitch_pages_concat lastData tdatas cursors [] hlen
  · simpa using mixer_pages_concat mdatas [] _ hne (Or.inl rfl)
  · simpa using mixer_pages_concat mdatas [] _ hne (Or.inr rfl)

/-- Witness for C5: two Twitch pages (one cursor) and two nonempty Mixer
pages before the terminal response. -/
theorem pagination_concat_terminates_witness :
    (([[⟨"a", "u", "t", "b", "th"⟩]] : List (List TClip)).length
        = (["cur1"] : List String).length
      ∧ (∀ p ∈ ([[⟨"m1", 1⟩], [⟨"m2", 2⟩]] : List (List MClip)), p ≠ []))
    ∧ (twitch_get_all_clips
          ((List.zipWith (fun d c => TwitchResp.mk 200 d (some c))
              ([[⟨"a", "u", "t", "b", "th"⟩]] : List (List TClip)) ["cur1"])
            ++ [TwitchResp.mk 200 [⟨"z", "u", "t", "b", "th"⟩] none]) []
        = Except.ok ((([[⟨"a", "u", "t", "b", "th"⟩]] : List (List TClip))
            ++ ([[⟨"z", "u", "t", "b", "th"⟩]] : List (List TClip))).join)
      ∧ mixer_get_all_clips
          ((([[⟨"m1", 1⟩], [⟨"m2", 2⟩]] : List (List MClip)).map
              (fun d => MixerResp.mk 200 (some d)))
            ++ [MixerResp.mk 200 none]) []
        = Except.ok ([[⟨"m1", 1⟩], [⟨"m2", 2⟩]] : List (List MClip)).join
      ∧ mixer_get_all_clips
          ((([[⟨"m1", 1⟩], [⟨"m2", 2⟩]] : List (List MClip)).map
              (fun d => MixerResp.mk 200 (some d)))
            ++ [MixerResp.mk 200 (some [])]) []
        = Except.ok ([[⟨"m1", 1⟩], [⟨"m2", 2⟩]] : List (List MClip)).join) :=
  ⟨⟨by decide, by decide⟩,
    pagination_concat_terminates
      [[(⟨"a", "u", "t", "b", "th"⟩ : TClip)]] ["cur1"]
      [(⟨"z", "u", "t", "b", "th"⟩ : TClip)]
      [[(⟨"m1", 1⟩ : MClip)], [(⟨"m2", 2⟩ : MClip)]] (by decide) (by decide)⟩

/-- C6 counterexample: an HTTP 400 on the Twitch clip-listing call raises
the generic `APIError`, not `InvalidTwitchCredentials` — the claim's
400-to-invalid-credentials branch does not exist in
`TwitchStream.get_all_clips`. -/
theorem twitch_400_not_invalid_credentials :
    twitch_get_all_clips [TwitchResp.mk 400 [] none] []
        = Except.error StreamErr.apiError
    ∧ (Except.error StreamErr.apiError :
          Except StreamErr (List TClip))
        ≠ Except.error StreamErr.invalidTwitchCredentials := by
  refine ⟨rfl, ?_⟩
  intro h
  exact absurd (Except.error.inj h) (by decide)

/-- C6 (amended): on any non-200 status, `TwitchStream.get_all_clips`
raises the channel-not-found error for 404 and the generic API error for
every other status, including 400. -/
theorem twitch_get_all_clips_error_taxonomy
    (r : TwitchResp) (rest : List TwitchResp) (existing : List TClip)
    (hs : r.status ≠ 200) :
    twitch_get_all_clips (r :: rest) existing
      = if r.status = 404 then Except.error StreamErr.streamNotFound
        else Except.error StreamErr.apiError := by
  rw [twitch_get_all_clips]
  simp [hs]

/-- Witness for the amended C6 at status 400. -/
theorem twitch_get_all_clips_error_taxonomy_witness :
    ((TwitchResp.mk 400 [] none).status ≠ 200)
    ∧ twitch_get_all_clips [TwitchResp.mk 400 [] none] []
        = (if (TwitchResp.mk 400 [] none).status = 404
            then Except.error StreamErr.streamNotFound
            else Except.error StreamErr.apiError) :=
  ⟨by decide, twitch_get_all_clips_error_taxonomy (TwitchResp.mk 400 [] none) [] [] (by decide)⟩

/-- C7 (code bug, evaluated at the failing input): with an empty ledger and
a single novel clip whose metadata fetch raises, `get_new_clips` records
the clip in the ledger and detects it as novel, yet returns an empty embed
batch — the `clip_metadata` local is unbound, `make_clip_embeds` raises
`NameError`, and the surrounding `try/except` swallows it, so the claimed
degraded notification is never produced. -/
theorem twitch_metadata_failure_drops_embed :
    twitch_get_new_clips 0 (fun _ => Except.error ()) []
        [⟨"c1", "u", "t", "b", "th"⟩]
      = ⟨[⟨"c1", "u", "t", "b", "th"⟩], [], [("c1", 0)]⟩ := by
  decide

/-! ### Registry lemmas -/

theorem removeStream_subset :
    ∀ (l : List StreamR) (i : Nat), ∀ s2 ∈ removeStream l i, s2 ∈ l := by
  intro l i
  induction l with
  | nil => intro s2 h; simp [removeStream] at h
  | cons s rest ih =>
      intro s2 h
      rw [removeStream] at h
      by_cases hs : s.sid = i
      · simp only [hs, if_pos rfl] at h
        exact List.mem_cons_of_mem _ h
      · simp only [hs, if_neg, not_false_iff] at h
        rcases List.mem_cons.mp h with h | h
        · exact h ▸ List.mem_cons_self _ _
        · exact List.mem_cons_of_mem _ (ih s2 h)

theorem map_update_id (updated : StreamR) (i : Nat) :
    ∀ (l : List StreamR), i ∉ l.map StreamR.sid →
      l.map (fun s => if s.sid = i then updated else s) = l := by
  intro l
  induction l with
  | nil => intro _; rfl
  | cons s rest ih =>
      intro hni
      have hs : s.sid ≠ i := fun h => hni (by simp [← h])
      have hrest : i ∉ rest.map StreamR.sid := fun h => hni (by simp [h])
      simp [hs, ih hrest]

theorem mem_map_update (updated : StreamR) (i : Nat) :
    ∀ (l : List StreamR),
      ∀ s2 ∈ l.map (fun s => if s.sid = i then updated else s),
        s2 = updated ∨ s2 ∈ l := by
  intro l s2 h
  rcases List.mem_map.mp h with ⟨a, ha, heq⟩
  by_cases hs : a.sid = i
  · left; rw [← heq]; simp [hs]
  · right; rw [← heq]; simp [hs]; exact ha

theorem mem_removeStream_map (updated : StreamR) (i : Nat) (hu : updated.sid = i) :
    ∀ (l : List StreamR), (l.map StreamR.sid).Nodup →
      ∀ s2 ∈ removeStream (l.map (fun s => if s.sid = i then updated else s)) i,
        s2 ∈ l ∧ s2.sid ≠ i := by
  intro l
  induction l with
  | nil => intro _ s2 h; simp [removeStream] at h
  | cons s rest ih =>
      intro hnd s2 h2
      have hnd2 : (rest.map StreamR.sid).Nodup := (List.nodup_cons.mp hnd).2
      have hns : s.sid ∉ rest.map StreamR.sid := (List.nodup_cons.mp hnd).1
      by_cases hs : s.sid = i
      · simp only [List.map_cons, if_pos hs] at h2
        rw [removeStream] at h2
        simp only [hu, if_pos rfl] at h2
        rw [map_update_id updated i rest (hs ▸ hns)] at h2
        refine ⟨List.mem_cons_of_mem _ h2, fun hsid => ?_⟩
        exact (hs ▸ hns) (hsid ▸ List.mem_map_of_mem StreamR.sid h2)
      · simp only [List.map_cons, if_neg hs] at h2
        rw [removeStream] at h2
        simp only [hs, if_neg, not_false_iff] at h2
        rcases List.mem_cons.mp h2 with h | h
        · subst h
          exact ⟨List.mem_cons_self _ _, hs⟩
        · rcases ih hnd2 s2 h with ⟨ha, hb⟩
          exact ⟨List.mem_cons_of_mem _ ha, hb⟩

/-- C8: registry invariant.  After either registry mutation — toggling an
alert via `add_or_remove` or disabling alerts via `clipalert_stop` — every
stream remaining in the registry has a non-empty destination-channel
list, and removing a stream's last destination deletes that stream from
the list before it is persisted. -/
theorem registry_no_empty_destination
    (ctxId : Nat) (stream : StreamR) (streams : List StreamR)
    (allFlag ctxInLocal : Bool)
    (hnd : (streams.map StreamR.sid).Nodup)
    (hne : ∀ s ∈ streams, s.channels ≠ []) :
    (∀ s ∈ add_or_remove ctxId stream streams, s.channels ≠ [])
    ∧ (ctxId ∈ stream.channels → stream.channels.erase ctxId = [] →
        ∀ s ∈ add_or_remove ctxId stream streams, s.sid ≠ stream.sid)
    ∧ (∀ s ∈ clipalert_stop ctxId allFlag ctxInLocal streams, s.channels ≠ []) := by
  refine ⟨?_, ?_, ?_⟩
  · intro s hs
    unfold add_or_remove at hs
    by_cases hmem : ctxId ∈ stream.channels
    · simp only [hmem, if_pos] at hs
      by_cases hemp : stream.channels.erase ctxId = []
      · simp only [hemp, if_pos] at hs
        exact hne s (mem_removeStream_map ⟨stream.sid, []⟩ stream.sid rfl streams hnd s hs).1
      · simp only [hemp, if_neg, not_false_iff] at hs
        rcases mem_map_update _ stream.sid streams s hs with h | h
        · subst h; exact hemp
        · exact hne s h
    · simp only [hmem, if_neg, not_false_iff] at hs
      by_cases hin : streams.any (fun s2 => s2.sid == stream.sid)
      · simp only [hin, if_pos] at hs
        rcases mem_map_update _ stream.sid streams s hs with h | h
        · subst h; simp
        · exact hne s h
      · simp only [hin] at hs
        rw [if_neg (by simpa using hin)] at hs
        rcases List.mem_append.mp hs with h | h
        · rcases mem_map_update _ stream.sid streams s h with h | h
          · subst h; simp
          · exact hne s h
        · simp at h; subst h; simp
  · intro hmem hemp s hs
    unfold add_or_remove at hs
    simp only [hmem, if_pos, hemp] at hs
    exact (mem_removeStream_map ⟨stream.sid, []⟩ stream.sid rfl streams hnd s hs).2
  · intro s hs
    unfold clipalert_stop at hs
    have := (List.mem_filter.mp hs).2
    simpa using this

/-- Witness for C8: one tracked stream whose only destination is removed,
so the stream itself is deleted. -/
theorem registry_no_empty_destination_witness :
    ((([⟨0, [1]⟩] : List StreamR).map StreamR.sid).Nodup
      ∧ (∀ s ∈ ([⟨0, [1]⟩] : List StreamR), s.channels ≠ []))
    ∧ ((∀ s ∈ add_or_remove 1 ⟨0, [1]⟩ [⟨0, [1]⟩], s.channels ≠ [])
      ∧ ((1 : Nat) ∈ (⟨0, [1]⟩ : StreamR).channels →
          (⟨0, [1]⟩ : StreamR).channels.erase 1 = [] →
          ∀ s ∈ add_or_remove 1 ⟨0, [1]⟩ [⟨0, [1]⟩], s.sid ≠ (⟨0, [1]⟩ : StreamR).sid)
      ∧ (∀ s ∈ clipalert_stop 1 true true [⟨0, [1]⟩], s.channels ≠ [])) :=
  ⟨⟨by decide, by decide⟩,
    registry_no_empty_destination 1 ⟨0, [1]⟩ [⟨0, [1]⟩] true true (by decide) (by decide)⟩

/-- C9: per-channel failure isolation in `check_clips`.  A step that
raises on one stream leaves that stream's state unchanged, does not abort
the cycle, never propagates the exception (the cycle is a total function),
and the remaining streams' processing and updates are exactly what they
would have been on their own. -/
theorem check_clips_failure_isolation {σ ε β : Type}
    (step : σ → Except ε (σ × List β)) (pre post : List σ) (s : σ) (e : ε)
    (hs : step s = Except.error e) :
    check_clips step (pre ++ s :: post)
      = ((check_clips step pre).fst ++ s :: (check_clips step post).fst,
         (check_clips step pre).snd ++ (check_clips step post).snd) := by
  induction pre with
  | nil => simp [check_clips, hs]
  | cons p pre2 ih =>
      cases hp : step p with
      | ok v =>
          obtain ⟨p2, es⟩ := v
          simp [check_clips, hp, ih, List.append_assoc]
      | error e2 => simp [check_clips, hp, ih]

/-- Witness for C9: three streams, the middle one failing. -/
theorem check_clips_failure_isolation_witness :
    (sampleStep 1 = Except.error 7)
    ∧ check_clips sampleStep ([0] ++ 1 :: [2])
        = ((check_clips sampleStep [0]).fst ++ 1 :: (check_clips sampleStep [2]).fst,
           (check_clips sampleStep [0]).snd ++ (check_clips sampleStep [2]).snd) :=
  ⟨rfl, check_clips_failure_isolation sampleStep [0] [2] 1 7 rfl⟩

/-! ### Shared-default accumulator -/

theorem twitch_get_all_clips_mono :
    ∀ (resps : List TwitchResp) (existing out : List TClip),
      twitch_get_all_clips resps existing = Except.ok out →
      ∀ c ∈ existing, c ∈ out := by
  intro resps
  induction resps with
  | nil =>
      intro existing out h c hc
      rw [twitch_get_all_clips] at h
      injection h with h
      exact h ▸ hc
  | cons r rest ih =>
      intro existing out h c hc
      rw [twitch_get_all_clips] at h
      by_cases h200 : r.status = 200
      · simp only [h200, if_pos] at h
        cases hp : r.pagination with
        | some cur =>
            rw [hp] at h
            exact ih _ out h c (List.mem_append_left _ hc)
        | none =>
            rw [hp] at h
            injection h with h
            exact h ▸ List.mem_append_left _ hc
      · simp only [h200, if_neg, not_false_iff] at h
        by_cases h404 : r.status = 404
        · rw [if_pos h404] at h; cases h
        · rw [if_neg h404] at h; cases h

/-- C10 (implicit): the mutable default accumulator of
`TwitchStream.get_all_clips` is shared across `seed_new_streamer` calls
(which pass `[logger, existing_data]` as the `logger` argument, leaving
`existing_data` at its default), so a second seeding call's resulting
`knownclips` also contains every clip gathered by the first call. -/
theorem seed_shared_default_accumulates
    (now1 now2 : Int) (r1 r2 : List TwitchResp)
    (k1 k2 : List (String × Int)) (d1 d2 : List TClip)
    (h1 : twitch_seed_new_streamer now1 r1 [] = Except.ok (k1, d1))
    (h2 : twitch_seed_new_streamer now2 r2 d1 = Except.ok (k2, d2)) :
    ∀ c ∈ d1, (c.id, now2) ∈ k2 := by
  intro c hc
  unfold twitch_seed_new_streamer at h2
  cases hga : twitch_get_all_clips r2 d1 with
  | ok acc =>
      rw [hga] at h2
      injection h2 with h2
      have hpair := Prod.mk.injEq .. ▸ h2
      have hk2 : acc.map (fun d => (d.id, now2)) = k2 := congrArg Prod.fst h2
      have hsub : c ∈ acc := twitch_get_all_clips_mono r2 d1 acc hga c hc
      exact hk2 ▸ List.mem_map_of_mem _ hsub
  | error e2 =>
      rw [hga] at h2
      cases h2

/-- Witness for C10: seeding streamer A then streamer B; B's ledger
contains A's clip. -/
theorem seed_shared_default_accumulates_witness :
    (twitch_seed_new_streamer 1 [TwitchResp.mk 200 [⟨"a", "u", "t", "b", "th"⟩] none] []
        = Except.ok ([("a", 1)], [⟨"a", "u", "t", "b", "th"⟩])
      ∧ twitch_seed_new_streamer 2 [TwitchResp.mk 200 [⟨"b2", "u", "t", "b", "th"⟩] none]
          [⟨"a", "u", "t", "b", "th"⟩]
        = Except.ok ([("a", 2), ("b2", 2)],
            [⟨"a", "u", "t", "b", "th"⟩, ⟨"b2", "u", "t", "b", "th"⟩]))
    ∧ (∀ c ∈ ([⟨"a", "u", "t", "b", "th"⟩] : List TClip),
        (c.id, (2 : Int)) ∈ [("a", (2 : Int)), ("b2", 2)]) :=
  ⟨⟨rfl, rfl⟩,
    seed_shared_default_accumulates 1 2
      [TwitchResp.mk 200 [⟨"a", "u", "t", "b", "th"⟩] none]
      [TwitchResp.mk 200 [⟨"b2", "u", "t", "b", "th"⟩] none]
      [("a", 1)] [("a", 2), ("b2", 2)]
      [⟨"a", "u", "t", "b", "th"⟩]
      [⟨"a", "u", "t", "b", "th"⟩, ⟨"b2", "u", "t", "b", "th"⟩]
      rfl rfl⟩

end GiliBot
